import Mathlib

/-!
Verification development for the KillrVideo-style FastAPI backend
(`app/services/video_service.py`, `app/services/vector_search_utils.py`,
`app/services/embedding_service.py`, `app/external_services/youtube_metadata.py`).

Python strings are embedded as `List Char` where character-level structure
matters (URL parsing, tokenization) and as `String` where they are opaque
values.  Machine floats only ever undergo order comparisons in the code under
study, so similarities and thresholds are embedded as `Rat`.  The Astra Data
API store is embedded as explicit association lists inside a `DB` record;
each service function becomes a pure state transformer on `DB`.
-/

namespace KV

/-! ### YouTube URL parsing

Embedding of `_YOUTUBE_PATTERNS` and `extract_youtube_video_id`
(`video_service.py` lines 61-115).  Each regex is anchored at the start of
the input (Python `pattern.match`).  The optional groups `(?:https?://)?`
and `(?:www\.)?` are expanded, in regex backtracking order, into the six
concrete literal prefixes of `schemeVariants`; the captured group
`(?P<id>[A-Za-z0-9_-]{11})` becomes `takeId 11`. -/

/-- One character of the regex class `[A-Za-z0-9_-]`. -/
def isIdChar (c : Char) : Bool :=
  c.isAlpha || c.isDigit || c = '_' || c = '-'

/-- Take exactly `n` id characters from the front of the input
(the rest of the input is ignored, as with `re.match`). -/
def takeId : Nat → List Char → Option (List Char)
  | 0, _ => some []
  | _ + 1, [] => none
  | n + 1, c :: rest =>
    if isIdChar c then (takeId n rest).map (fun ys => c :: ys) else none

/-- Strip a literal from the front of the input, returning the remainder. -/
def stripLit : List Char → List Char → Option (List Char)
  | [], s => some s
  | _ :: _, [] => none
  | c :: lit, c2 :: s => if c = c2 then stripLit lit s else none

/-- The six expansions of `(?:https?://)?(?:www\.)?`, in the order regex
backtracking tries them (greedy optional groups, `https` before `http`). -/
def schemeVariants : List (List Char) :=
  [ ['h','t','t','p','s',':','/','/','w','w','w','.'],
    ['h','t','t','p','s',':','/','/'],
    ['h','t','t','p',':','/','/','w','w','w','.'],
    ['h','t','t','p',':','/','/'],
    ['w','w','w','.'],
    [] ]

/-- Literal core of `youtu\.be/`. -/
def litYoutuBe : List Char := ['y','o','u','t','u','.','b','e','/']

/-- Literal core of `youtube\.com/watch\?v=`. -/
def litWatch : List Char :=
  ['y','o','u','t','u','b','e','.','c','o','m','/','w','a','t','c','h','?','v','=']

/-- Literal core of `youtube\.com/embed/`. -/
def litEmbed : List Char :=
  ['y','o','u','t','u','b','e','.','c','o','m','/','e','m','b','e','d','/']

/-- Literal core of `youtube\.com/v/`. -/
def litV : List Char := ['y','o','u','t','u','b','e','.','c','o','m','/','v','/']

/-- Literal core of `youtube\.com/shorts/`. -/
def litShorts : List Char :=
  ['y','o','u','t','u','b','e','.','c','o','m','/','s','h','o','r','t','s','/']

/-- Anchored match of one pattern: optional scheme/www prefix, the pattern's
literal core, then exactly 11 id characters. -/
def matchShape (lit : List Char) (s : List Char) : Option (List Char) :=
  schemeVariants.findSome? fun pre => (stripLit (pre ++ lit) s).bind (takeId 11)

/-- `extract_youtube_video_id`: try the five patterns in declaration order,
first match wins, `none` when no pattern matches. -/
def extractYoutubeVideoId (s : List Char) : Option (List Char) :=
  [litYoutuBe, litWatch, litEmbed, litV, litShorts].findSome? fun lit =>
    matchShape lit s

/-! ### Embedding service tokenizer

Embedding of `EmbeddingService._clip_to_max_tokens` and
`EmbeddingService.generate_embedding` (`embedding_service.py` lines 47-105).
The tokenizer regex `\w+|[^\w\s]` is embedded over the ASCII fragment of the
character classes; `findall` scans left to right, taking maximal word runs
and single non-word non-space characters. -/

/-- ASCII fragment of the regex class `\w`. -/
def isWordCh (c : Char) : Bool :=
  c.isAlpha || c.isDigit || c = '_'

/-- ASCII fragment of the regex class `\s` (also the characters stripped by
`str.strip`). -/
def isSpaceCh (c : Char) : Bool :=
  c = ' ' || c = '\t' || c = '\n' || c = '\r' || c = '\x0b' || c = '\x0c'

/-- `re.findall(r"\w+|[^\w\s]", text)`. -/
def tokenize : List Char → List (List Char)
  | [] => []
  | c :: rest =>
    if isWordCh c then
      (c :: rest.takeWhile isWordCh) :: tokenize (rest.dropWhile isWordCh)
    else if isSpaceCh c then
      tokenize rest
    else
      [c] :: tokenize rest
termination_by l => l.length
decreasing_by
  · exact Nat.lt_succ_of_le (List.dropWhile_sublist _).length_le
  · exact Nat.lt_succ_self _
  · exact Nat.lt_succ_self _

/-- `" ".join(tokens)` (and, with another separator, `"\n".join`). -/
def joinSep (sep : Char) : List (List Char) → List Char
  | [] => []
  | [t] => t
  | t :: ts => t ++ sep :: joinSep sep ts

/-- Space-joined token list, as produced by the clipping step. -/
def joinTokens (ts : List (List Char)) : List Char := joinSep ' ' ts

/-- `_clip_to_max_tokens`: return the text unchanged when it has at most
`maxTokens` tokens, otherwise the first `maxTokens` tokens joined with
single spaces. -/
def clipToMaxTokens (maxTokens : Nat) (text : List Char) : List Char :=
  let tokens := tokenize text
  if tokens.length ≤ maxTokens then text else joinTokens (tokens.take maxTokens)

/-- `generate_embedding` with `clip_tokens=True`: reject empty or
whitespace-only input (`ValueError`), otherwise clip to 512 tokens and hand
the clipped text to the model.  The model itself is the opaque deterministic
function `enc`. -/
def generateEmbedding {α : Type} (enc : List Char → α) (text : List Char) :
    Except Unit α :=
  if text.isEmpty || text.all isSpaceCh then Except.error ()
  else Except.ok (enc (clipToMaxTokens 512 text))

/-! ### Semantic vector search

Embedding of `semantic_search_with_threshold`
(`vector_search_utils.py` lines 28-105).  The store's sorted vector read
`db_table.find(sort={vector_column: query}, limit=overfetch)` is embedded as
`corpus.take overfetch`, where `corpus` is the store's full candidate list in
similarity-descending order; `$similarity` may be absent from a returned
document (`d.get("$similarity", 0)`), hence `Option Rat`. -/

/-- One document returned by the vector read; `payload` stands for the rest
of the row (irrelevant to the algorithm). -/
structure SDoc where
  sim : Option Rat
  payload : Nat
deriving DecidableEq, Repr

/-- `d.get("$similarity", 0)`. -/
def simOf (d : SDoc) : Rat := d.sim.getD 0

/-- `semantic_search_with_threshold` as a function of the store's ranked
candidate list. -/
def semanticSearchWithThreshold (corpus : List SDoc) (page pageSize : Nat)
    (similarityThreshold : Rat) (overfetchFactor : Nat) : List SDoc × Nat :=
  if page < 1 ∨ pageSize < 1 then ([], 0)
  else
    let overfetch := pageSize * overfetchFactor * page
    let docs := corpus.take overfetch
    let docs :=
      if 0 < similarityThreshold then
        docs.filter fun d => decide (similarityThreshold ≤ simOf d)
      else docs
    let total := docs.length
    let start := (page - 1) * pageSize
    ((docs.drop start).take pageSize, total)

/-! ### YouTube metadata resolver

Embedding of `fetch_youtube_metadata`, `_fetch_v3_api` and `_fetch_oembed`
(`youtube_metadata.py` lines 61-194).  Outbound HTTP outcomes are embedded as
inductive response values; a raised exception other than
`MetadataFetchError` (httpx transport errors, JSON decode errors) is
`transportError`.  JSON fields that may be missing are `Option`; the model
does not distinguish an explicit JSON `null` title (which raises a
validation error and so behaves like `badJson`). -/

/-- `YouTubeMetadata` after pydantic validation. -/
structure YMeta where
  title : String
  description : Option String
  thumbnailUrl : Option String
  tags : List String
deriving DecidableEq, Repr

/-- The `snippet` object of a Data API v3 item (fields may be missing). -/
structure V3Snippet where
  title : Option String
  description : Option String
  thumbnailUrl : Option String
  tags : Option (List String)
deriving DecidableEq, Repr

/-- Outcome of the Data API v3 HTTP call; `payload items` is a 200 response
whose `items` list holds objects with an optional `snippet`. -/
inductive V3Resp
  | netErr
  | non200 (code : Nat)
  | badJson
  | payload (items : List (Option V3Snippet))
deriving DecidableEq, Repr

/-- Outcome of the oEmbed HTTP call. -/
inductive OEResp
  | netErr
  | non200 (code : Nat)
  | badJson
  | payload (title : Option String) (thumbnailUrl : Option String)
deriving DecidableEq, Repr

/-- How a resolver path fails: a raised `MetadataFetchError`, or any other
exception (network, JSON decoding). -/
inductive FetchFailure
  | metadataFetchError
  | transportError
deriving DecidableEq, Repr

/-- Python falsiness of an optional string (`not x` for `None` or `""`). -/
def strFalsy : Option String → Bool
  | none => true
  | some s => s.isEmpty

/-- `_fetch_v3_api`: non-200 and empty `items` raise `MetadataFetchError`;
a present item yields `snippet.get("title", "")` etc. — a snippet with no
title succeeds with an empty title. -/
def fetchV3Api : V3Resp → Except FetchFailure YMeta
  | .netErr => .error .transportError
  | .non200 _ => .error .metadataFetchError
  | .badJson => .error .transportError
  | .payload items =>
    match items.head? with
    | none => .error .metadataFetchError
    | some item =>
      let snippet := item.getD ⟨none, none, none, none⟩
      .ok { title := snippet.title.getD ""
            description := snippet.description
            thumbnailUrl := snippet.thumbnailUrl
            tags := snippet.tags.getD [] }

/-- The constructed `https://i.ytimg.com/vi/{id}/hqdefault.jpg` fallback. -/
def defaultThumb (ytid : String) : String :=
  "https://i.ytimg.com/vi/" ++ ytid ++ "/hqdefault.jpg"

/-- `_fetch_oembed`: non-200 raises `MetadataFetchError`, a payload without a
(truthy) title raises `MetadataFetchError`, otherwise title+thumbnail with
empty tags. -/
def fetchOembed (ytid : String) : OEResp → Except FetchFailure YMeta
  | .netErr => .error .transportError
  | .non200 _ => .error .metadataFetchError
  | .badJson => .error .transportError
  | .payload title thumb =>
    if strFalsy title then .error .metadataFetchError
    else
      .ok { title := title.getD ""
            description := none
            thumbnailUrl :=
              some (if strFalsy thumb then defaultThumb ytid else thumb.getD "")
            tags := [] }

/-- `fetch_youtube_metadata`: try the Data API only when a key is configured;
any exception there (`except Exception`) falls back to oEmbed; otherwise the
oEmbed outcome is returned as is. -/
def fetchYoutubeMetadata (hasApiKey : Bool) (v3 : V3Resp) (oe : OEResp)
    (ytid : String) : Except FetchFailure YMeta :=
  if hasApiKey then
    match fetchV3Api v3 with
    | .ok m => .ok m
    | .error _ => fetchOembed ytid oe
  else fetchOembed ytid oe

/-! ### Content Store model

The Astra tables touched by `video_service.py`, embedded as association
lists keyed by numeric ids standing for the UUIDs.  `latest_videos` rows and
`video_activity` rows are never read back by the operations under study, so
only their row counts are tracked.  Timestamp columns (`added_date`,
`updatedAt`, `rating_date`) and the embedding column `content_features` play
no role in any claim and are omitted from the row model. -/

/-- `VideoStatusEnum`. -/
inductive VStatus
  | pending
  | processing
  | ready
  | error
deriving DecidableEq, Repr

/-- One row of the `videos` table.  `none` means the column is absent from
the stored document. -/
structure VideoDoc where
  status : Option VStatus := none
  name : Option String := none
  description : Option String := none
  previewImage : Option String := none
  tags : List String := []
  location : Option (List Char) := none
  youtubeVideoId : Option (List Char) := none
  views : Option Nat := none
deriving DecidableEq, Repr

/-- The whole store. -/
structure DB where
  videos : List (Nat × VideoDoc) := []
  latestVideos : Nat := 0
  activityEvents : Nat := 0
  ratingsByUser : List ((Nat × Nat) × Nat) := []
  ratingsSummary : List (Nat × (Nat × Nat)) := []
deriving DecidableEq, Repr

/-- `find_one(filter={"videoid": id})`. -/
def findOne (videos : List (Nat × VideoDoc)) (id : Nat) : Option VideoDoc :=
  (videos.find? fun kv => kv.1 = id).map (·.2)

/-- `update_one` without upsert: rewrite the first row matching the filter,
leave the store unchanged when no row matches. -/
def updateFirst : List (Nat × VideoDoc) → Nat → (VideoDoc → VideoDoc) →
    List (Nat × VideoDoc)
  | [], _, _ => []
  | (k, d) :: rest, id, f =>
    if k = id then (k, f d) :: rest else (k, d) :: updateFirst rest id f

/-- `update_one(..., upsert=True)`: rewrite the first matching row, or
create one by applying the update operators to a fresh empty document. -/
def updateFirstUpsert (videos : List (Nat × VideoDoc)) (id : Nat)
    (f : VideoDoc → VideoDoc) : List (Nat × VideoDoc) :=
  if (findOne videos id).isSome then updateFirst videos id f
  else videos ++ [(id, f {})]

/-- A `$set` payload over the modelled `videos` columns: `none` means the
key is absent from the payload. -/
structure SetPayload where
  name : Option String := none
  description : Option String := none
  previewImage : Option String := none
  tags : Option (List String) := none
  status : Option VStatus := none
deriving DecidableEq, Repr

/-- Set a single field when the payload carries it. -/
def setField {α : Type} (new : Option α) (old : Option α) : Option α :=
  match new with
  | some v => some v
  | none => old

/-- Apply a `$set` payload to a row. -/
def applySet (p : SetPayload) (d : VideoDoc) : VideoDoc :=
  { d with
    name := setField p.name d.name
    description := setField p.description d.description
    previewImage := setField p.previewImage d.previewImage
    tags := (p.tags).getD d.tags
    status := setField p.status d.status }

/-- `_prepare_video_doc` on a `$set` payload: the allow-list
`_VIDEO_TABLE_ALLOWED_COLUMNS` keeps `name`, `description`,
`preview_image_location` and `tags` but strips `status` (and `updatedAt`,
which the model does not carry). -/
def prepareVideoDocSet (p : SetPayload) : SetPayload :=
  { p with status := none }

/-- `update_one({"videoid": id}, {"$set": p})` on the `videos` table. -/
def applyVideosSet (db : DB) (id : Nat) (p : SetPayload) : DB :=
  { db with videos := updateFirst db.videos id (applySet p) }

/-- Stored status of a video, `none` when the row or the column is absent. -/
def statusOf (db : DB) (id : Nat) : Option VStatus :=
  (findOne db.videos id).bind (·.status)

/-- Python `bool(s)` for a string. -/
def strTruthy (s : String) : Bool := !s.isEmpty

/-- Python truthiness of an optional string field. -/
def optTruthy : Option String → Bool
  | none => false
  | some s => !s.isEmpty

/-- Python `a or b` where `a` is an optional string and `b` a string. -/
def pyOrStr (a : Option String) (b : String) : String :=
  match a with
  | some s => if s.isEmpty then b else s
  | none => b

/-! ### Submission (`submit_new_video`, lines 123-284)

External-world inputs (mock-table detection, configuration toggles, the
metadata fetch outcome, the fresh `uuid4`, whether the live table rejects
unknown columns) are parameters.  The second insert into `latest_videos`
only bumps a row counter; the embedding vector written to
`content_features` is not tracked, but the `generate_embedding` emptiness
check — which can abort the submission — is. -/

/-- Submission failures: invalid URL (HTTP 400), metadata fetch failure
(HTTP 502), `ValueError` from an empty embedding text (HTTP 500). -/
inductive SubmitErr
  | invalidReference
  | badGateway
  | embeddingError
deriving DecidableEq, Repr

/-- The text blob embedded at submission: resolved name, then the
description when truthy, then the space-joined tags when non-empty, joined
with newlines. -/
def embeddingText (name : String) (description : Option String)
    (tags : List String) : List Char :=
  joinSep '\n'
    ([name.toList]
      ++ (if optTruthy description then [(description.getD "").toList] else [])
      ++ (if tags.isEmpty then [] else [joinSep ' ' (tags.map (·.toList))]))

/-- The inline metadata fetch of `submit_new_video` (lines 157-172): the
fetch runs only when inline metadata is enabled and the table is not a test
mock; a `MetadataFetchError` outcome surfaces as HTTP 502. -/
def inlineMetaStep (isMock metadataDisabled : Bool)
    (metaResult : Except Unit YMeta) : Except SubmitErr (Option YMeta) :=
  if !metadataDisabled && !isMock then
    match metaResult with
    | .error _ => .error .badGateway
    | .ok m => .ok (some m)
  else .ok none

/-- The persistence tail of `submit_new_video` (lines 228-279): insert the
new row into `videos` — schema-filtered through `_prepare_video_doc` when
the live table rejected the full document (`status` and `youtubeVideoId`
are stripped) — and, outside unit-test mocks, insert a `latest_videos`
row. -/
def submitInsert (isMock schemaFiltered : Bool) (doc : VideoDoc)
    (freshId : Nat) (db : DB) : DB :=
  let stored :=
    if schemaFiltered then { doc with status := none, youtubeVideoId := none }
    else doc
  let db1 := { db with videos := db.videos ++ [(freshId, stored)] }
  if isMock then db1 else { db1 with latestVideos := db1.latestVideos + 1 }

/-- `submit_new_video`.  Returns the outcome and the store after the call;
every failure path leaves the store exactly as received. -/
def submitNewVideo (isMock metadataDisabled schemaFiltered : Bool)
    (metaResult : Except Unit YMeta) (url : List Char)
    (reqTitle : Option String) (freshId : Nat) (db : DB) :
    Except SubmitErr Nat × DB :=
  match extractYoutubeVideoId url with
  | none => (.error .invalidReference, db)
  | some ytid =>
    match inlineMetaStep isMock metadataDisabled metaResult with
    | .error e => (.error e, db)
    | .ok meta =>
      let resolvedName :=
        pyOrStr reqTitle
          (match meta with | some m => m.title | none => "Untitled Video")
      let doc : VideoDoc :=
        { status := some (if isMock then .pending else .ready)
          name := some resolvedName
          description := meta.bind (·.description)
          previewImage := meta.bind (·.thumbnailUrl)
          tags := (meta.map (·.tags)).getD []
          location := some url
          youtubeVideoId := some ytid
          views := none }
      let embText := embeddingText resolvedName doc.description doc.tags
      if embText.isEmpty || embText.all isSpaceCh then
        (.error .embeddingError, db)
      else
        (.ok freshId, submitInsert isMock schemaFiltered doc freshId db)

/-! ### Retrieval and field updates -/

/-- The `youtubeVideoId` backfill step of `get_video_by_id` (lines 331-336):
when the stored value is falsy, re-extract it from the stored location. -/
def backfillYoutubeId (d : VideoDoc) : VideoDoc :=
  if (match d.youtubeVideoId with | none => true | some l => l.isEmpty) then
    match d.location with
    | some loc =>
      match extractYoutubeVideoId loc with
      | some y => { d with youtubeVideoId := some y }
      | none => d
    | none => d
  else d

/-- `get_video_by_id` (lines 292-338): default a missing `status` column to
READY, then backfill a falsy `youtubeVideoId` from the stored location. -/
def getVideoById (db : DB) (id : Nat) : Option VideoDoc :=
  (findOne db.videos id).map fun d =>
    backfillYoutubeId
      (if d.status.isNone then { d with status := some .ready } else d)

/-- `update_video_details` (lines 341-373): `VideoUpdateRequest` carries only
`name`, `description` and `tags`; all three survive `_prepare_video_doc`, so
the `$set` payload never carries `status`. -/
def updateVideoDetails (id : Nat) (reqName reqDescription : Option String)
    (reqTags : Option (List String)) (db : DB) : DB :=
  if reqName.isNone && reqDescription.isNone && reqTags.isNone then db
  else
    applyVideosSet db id
      { name := reqName, description := reqDescription, tags := reqTags
        previewImage := none, status := none }

/-! ### View counting (`record_video_view`, lines 381-434) -/

/-- One view event appended to `video_activity`. -/
def recordActivity (db : DB) : DB :=
  { db with activityEvents := db.activityEvents + 1 }

/-- `{"$inc": {"views": 1}}` applied to a row (a missing value counts 0). -/
def incViews (d : VideoDoc) : VideoDoc :=
  { d with views := some (d.views.getD 0 + 1) }

/-- Fast path: the store accepts `$inc` on the bigint column. -/
def recordVideoViewAtomic (id : Nat) (db : DB) : DB :=
  recordActivity { db with videos := updateFirstUpsert db.videos id incViews }

/-- Fallback path taken when the store rejects `$inc`: read the current
value (`current.get("views", 0)`), add one, `$set` it back with upsert. -/
def recordVideoViewFallback (id : Nat) (db : DB) : DB :=
  let newCount := ((findOne db.videos id).bind (·.views)).getD 0 + 1
  recordActivity
    { db with
      videos :=
        updateFirstUpsert db.videos id fun d => { d with views := some newCount } }

/-- `record_video_view`, with the store's `$inc` capability as a flag. -/
def recordVideoView (supportsInc : Bool) (id : Nat) (db : DB) : DB :=
  if supportsInc then recordVideoViewAtomic id db
  else recordVideoViewFallback id db

/-- Stored view count of a video (0 when the row or the column is absent). -/
def viewsOf (db : DB) (id : Nat) : Nat :=
  ((findOne db.videos id).bind (·.views)).getD 0

/-! ### Ratings (`record_rating` lines 653-699, `get_rating_summary`
lines 702-721)

`video_ratings_by_user` is a Cassandra-style table keyed by
(`videoid`, `userid`): `insert_one` with an existing key overwrites the row
in place.  The summary table holds `(rating_counter, rating_total)`. -/

/-- `insert_one` into `video_ratings_by_user` (primary-key upsert). -/
def upsertRating : List ((Nat × Nat) × Nat) → Nat → Nat → Nat →
    List ((Nat × Nat) × Nat)
  | [], vid, uid, r => [((vid, uid), r)]
  | (k, v) :: rest, vid, uid, r =>
    if k = (vid, uid) then (k, r) :: rest
    else (k, v) :: upsertRating rest vid uid r

/-- Look up the summary row of a video. -/
def summaryFind (l : List (Nat × (Nat × Nat))) (vid : Nat) :
    Option (Nat × Nat) :=
  (l.find? fun kv => kv.1 = vid).map (·.2)

/-- `update_one(..., upsert=True)` on the summary table: rewrite the first
matching row, or create one by applying the operators to `(0, 0)`. -/
def summaryUpsert (l : List (Nat × (Nat × Nat))) (vid : Nat)
    (f : Nat × Nat → Nat × Nat) : List (Nat × (Nat × Nat)) :=
  match l with
  | [] => [(vid, f (0, 0))]
  | (k, v) :: rest =>
    if k = vid then (k, f v) :: rest else (k, v) :: summaryUpsert rest vid f

/-- Result of a `record_rating` call: the store afterwards and whether the
call died with an uncaught exception. -/
structure RatingResult where
  db : DB
  crashed : Bool
deriving DecidableEq, Repr

/-- `record_rating`, fast path: upsert the per-user row, then
`{"$inc": {"rating_counter": 1, "rating_total": rating}}` with upsert. -/
def recordRatingInc (vid uid r : Nat) (db : DB) : DB :=
  let db1 := { db with ratingsByUser := upsertRating db.ratingsByUser vid uid r }
  { db1 with
    ratingsSummary :=
      summaryUpsert db1.ratingsSummary vid fun ct => (ct.1 + 1, ct.2 + r) }

/-- `record_rating`, fallback path taken when the store rejects `$inc`
(lines 688-697).  The per-user row has already been written.  Only the
`counter` line is guarded by `if existing else 1`; the next line
`total = int(existing.get("rating_total", 0)) + rating` dereferences
`existing` unconditionally, so when no summary row exists the call raises
`AttributeError` after the per-user insert and before the `$set` write —
the summary table is left untouched. -/
def recordRatingFallback (vid uid r : Nat) (db : DB) : RatingResult :=
  let db1 := { db with ratingsByUser := upsertRating db.ratingsByUser vid uid r }
  match summaryFind db1.ratingsSummary vid with
  | none => ⟨db1, true⟩
  | some ct =>
    ⟨{ db1 with
        ratingsSummary :=
          summaryUpsert db1.ratingsSummary vid fun _ => (ct.1 + 1, ct.2 + r) },
      false⟩

/-- `record_rating`, with the store's `$inc` capability as a flag. -/
def recordRating (supportsInc : Bool) (vid uid r : Nat) (db : DB) :
    RatingResult :=
  if supportsInc then ⟨recordRatingInc vid uid r db, false⟩
  else recordRatingFallback vid uid r db

/-- `get_rating_summary`: `(ratingCount, averageRating)`.  The Python
`round(avg, 2)` is omitted; every value evaluated in this development is
exact at two decimals. -/
def getRatingSummary (db : DB) (vid : Nat) : Nat × Rat :=
  match summaryFind db.ratingsSummary vid with
  | none => (0, 0)
  | some ct => (ct.1, if 0 < ct.1 then (ct.2 : Rat) / (ct.1 : Rat) else 0)

/-- The reference aggregate of the specification: count and sum of the
current per-user rating rows of a video. -/
def refAggregate (db : DB) (vid : Nat) : Nat × Nat :=
  let rows := db.ratingsByUser.filter fun kv => decide (kv.1.1 = vid)
  (rows.length, (rows.map (·.2)).sum)

/-! ### Background processing (`process_video_submission`, lines 994-1075)

The provider outcome `MockYouTubeService.get_video_details` is the
parameter `details` (`none` embeds a falsy result).  On a mock table the
`$set` payloads are written verbatim; on a live table they pass through
`_prepare_video_doc`, which strips `status`.  The unconditional
`asyncio.sleep(5)` has no observable effect on the store and is not
modelled. -/

/-- Result of a background-processing run: the store afterwards, how many
`update_one` calls were issued against `videos`, and whether the run died
with an uncaught exception (`existing` is `None` and gets dereferenced). -/
structure ProcResult where
  db : DB
  writes : Nat
  crashed : Bool
deriving DecidableEq, Repr

/-- The `update_payload` built from the provider result: each field is
included only when the provider value is truthy and the stored value falsy;
on a mock table `name` is then overwritten with the provider title. -/
def processPayload (isMock : Bool) (ex : VideoDoc) (d : YMeta) : SetPayload :=
  let p : SetPayload :=
    { name := if strTruthy d.title && !optTruthy ex.name then some d.title else none
      description :=
        if optTruthy d.description && !optTruthy ex.description then
          d.description
        else none
      previewImage :=
        if optTruthy d.thumbnailUrl && !optTruthy ex.previewImage then
          d.thumbnailUrl
        else none
      tags := if !d.tags.isEmpty && ex.tags.isEmpty then some d.tags else none
      status := none }
  if isMock then { p with name := some d.title } else p

/-- `process_video_submission`. -/
def processVideoSubmission (isMock : Bool) (id : Nat) (details : Option YMeta)
    (db : DB) : ProcResult :=
  match findOne db.videos id with
  | none =>
    -- `existing` is None.  Either branch dereferences it
    -- (`existing.get(...)` raises AttributeError before any write) unless
    -- every provider field is falsy, in which case the two `update_one`
    -- calls match no row and leave the store unchanged.
    match details with
    | none => ⟨db, 0, true⟩
    | some d =>
      if strTruthy d.title || optTruthy d.description ||
          optTruthy d.thumbnailUrl || !d.tags.isEmpty then
        ⟨db, 0, true⟩
      else
        ⟨db, 2, false⟩
  | some ex =>
    if ex.status = some VStatus.ready then ⟨db, 0, false⟩
    else
      match details with
      | some d =>
        let upd := { processPayload isMock ex d with status := some VStatus.processing }
        let interim := if isMock then upd else prepareVideoDocSet upd
        let db1 := applyVideosSet db id interim
        let fin := { upd with status := some VStatus.ready }
        let finSet := if isMock then fin else prepareVideoDocSet fin
        ⟨applyVideosSet db1 id finSet, 2, false⟩
      | none =>
        let upd : SetPayload :=
          { name := some (pyOrStr ex.name "Error Processing Video")
            description := none, previewImage := none, tags := none
            status := some VStatus.error }
        let finSet := if isMock then upd else prepareVideoDocSet upd
        ⟨applyVideosSet db id finSet, 1, false⟩

/-- The store right after the interim PROCESSING write (lines 1041-1054),
`none` when that write is never reached (missing row, READY short-circuit).
`processVideoSubmission` continues from exactly this state. -/
def processInterim (isMock : Bool) (id : Nat) (d : YMeta) (db : DB) :
    Option DB :=
  match findOne db.videos id with
  | none => none
  | some ex =>
    if ex.status = some VStatus.ready then none
    else
      let upd := { processPayload isMock ex d with status := some VStatus.processing }
      some (applyVideosSet db id (if isMock then upd else prepareVideoDocSet upd))

/-! ### Service-level search (`search_videos_by_semantic` lines 756-806,
`search_videos_by_keyword` lines 729-748)

`search_videos_by_semantic` first embeds the query (raising HTTP 400 when
`generate_embedding` rejects it) and then evaluates
`settings.VECTOR_SEARCH_SIMILARITY_THRESHOLD` — an attribute the `Settings`
model does not declare, so the call raises `AttributeError` (and, were the
attribute present, the delegation passes `query_vector=`, a keyword
`semantic_search_with_threshold` does not accept).  `search_videos_by_keyword`
is a verbatim delegation to `search_videos_by_semantic`. -/

/-- How a service-level search call ends without a result. -/
inductive SearchFailure
  | badRequest
  | attributeError
deriving DecidableEq, Repr

/-- `search_videos_by_semantic`. -/
def searchVideosBySemantic {α : Type} (enc : List Char → α)
    (query : List Char) (page pageSize : Nat) :
    Except SearchFailure (List VideoDoc × Nat) :=
  match generateEmbedding enc query with
  | .error _ => .error .badRequest
  | .ok _ => .error .attributeError

/-- `search_videos_by_keyword`: a verbatim delegation. -/
def searchVideosByKeyword {α : Type} (enc : List Char → α)
    (query : List Char) (page pageSize : Nat) :
    Except SearchFailure (List VideoDoc × Nat) :=
  searchVideosBySemantic enc query page pageSize

/-- Does `small` occur at the head of `big`? -/
def leadsWith : List Char → List Char → Bool
  | [], _ => true
  | _ :: _, [] => false
  | a :: as, b :: bs => a = b && leadsWith as bs

/-- Python `needle in hay` for strings, over character lists. -/
def containsSeq (needle : List Char) : List Char → Bool
  | [] => needle.isEmpty
  | c :: rest => leadsWith needle (c :: rest) || containsSeq needle rest

/-- Modelled from the spec: the keyword fallback mode the specification
describes for `Search` — "a plain keyword/substring match over
name/description/tags with standard offset pagination and an exact total
count".  No code in the repository implements this. -/
def keywordSearchSpec (store : List VideoDoc) (query : List Char)
    (page pageSize : Nat) : List VideoDoc × Nat :=
  let hits := store.filter fun d =>
    containsSeq query (d.name.getD "").toList ||
    containsSeq query (d.description.getD "").toList ||
    d.tags.any fun t => containsSeq query t.toList
  ((hits.drop ((page - 1) * pageSize)).take pageSize, hits.length)

/-! ### Concrete instances used by the theorems below -/

/-- The literal input `"not-a-url"` from the specification's scenario. -/
def notAUrl : List Char := ['n','o','t','-','a','-','u','r','l']

/-- The specification's concrete scenario: `RateVideo(v,u1,3)` then
`RateVideo(v,u1,5)` then `RateVideo(v,u2,1)`, with v=1, u1=11, u2=12,
starting from an empty store, under either summary-update branch. -/
def ratingScenario (supportsInc : Bool) : DB :=
  (recordRating supportsInc 1 12 1
    ((recordRating supportsInc 1 11 5
      ((recordRating supportsInc 1 11 3 {}).db)).db)).db

/-- A provider result carrying only a title, as in the specification's
scenario. -/
def metaT : YMeta := ⟨"T", none, none, []⟩

/-- A store holding one legacy row that lacks the `status` column. -/
def statuslessDB : DB := { videos := [(1, {})] }

/-- The same store with the row explicitly READY. -/
def readyDB : DB :=
  { videos := [(1, { status := some VStatus.ready })] }

/-- A store holding one row stranded in ERROR. -/
def errDB : DB :=
  { videos := [(1, { status := some VStatus.error })] }

/-- A concrete valid 11-character platform id. -/
def idDQ : List Char := ['d','Q','w','4','w','9','W','g','X','c','Q']

/-- `https://youtu.be/dQw4w9WgXcQ`. -/
def urlYoutuBe : List Char :=
  ['h','t','t','p','s',':','/','/'] ++ litYoutuBe ++ idDQ

/-- `https://www.youtube.com/watch?v=dQw4w9WgXcQ`. -/
def urlWatch : List Char :=
  ['h','t','t','p','s',':','/','/','w','w','w','.'] ++ litWatch ++ idDQ

/-- `http://youtube.com/embed/dQw4w9WgXcQ`. -/
def urlEmbed : List Char := ['h','t','t','p',':','/','/'] ++ litEmbed ++ idDQ

/-- `www.youtube.com/v/dQw4w9WgXcQ`. -/
def urlV : List Char := ['w','w','w','.'] ++ litV ++ idDQ

/-- `youtube.com/shorts/dQw4w9WgXcQ`. -/
def urlShorts : List Char := litShorts ++ idDQ

/-- A well-formed token of the `\w+|[^\w\s]` tokenizer: a non-empty run of
word characters, or a single character that is neither word nor space. -/
def goodToken (t : List Char) : Prop :=
  (t ≠ [] ∧ ∀ c ∈ t, isWordCh c = true) ∨
  (∃ c, t = [c] ∧ isWordCh c = false ∧ isSpaceCh c = false)

/-- A 600-token input (600 copies of the word `a`, space-separated). -/
def witText : List Char := joinTokens (List.replicate 600 ['a'])

/-! ### Store lemmas -/

theorem findOne_cons (k : Nat) (d : VideoDoc) (rest : List (Nat × VideoDoc))
    (v : Nat) :
    findOne ((k, d) :: rest) v = if k = v then some d else findOne rest v := by
  by_cases h : k = v
  · simp [findOne, List.find?, h]
  · simp [findOne, List.find?, h]

theorem findOne_updateFirst (l : List (Nat × VideoDoc)) (id v : Nat)
    (f : VideoDoc → VideoDoc) :
    findOne (updateFirst l id f) v =
      if v = id then (findOne l v).map f else findOne l v := by
  induction l with
  | nil => simp [updateFirst, findOne]
  | cons kd rest ih =>
    obtain ⟨k, d⟩ := kd
    by_cases hk : k = id
    · subst hk
      by_cases hv : k = v
      · subst hv
        simp [updateFirst, findOne_cons]
      · rw [updateFirst, if_pos rfl, findOne_cons, if_neg hv, findOne_cons,
          if_neg hv, if_neg (fun h : v = k => hv h.symm)]
    · by_cases hv : k = v
      · subst hv
        rw [updateFirst, if_neg hk, findOne_cons, if_pos rfl, findOne_cons,
          if_pos rfl, if_neg (fun h : k = id => hk h)]
      · rw [updateFirst, if_neg hk, findOne_cons, if_neg hv, findOne_cons,
          if_neg hv, ih]

theorem findOne_append_of_some (l l2 : List (Nat × VideoDoc)) (v : Nat)
    (d : VideoDoc) (h : findOne l v = some d) :
    findOne (l ++ l2) v = some d := by
  induction l with
  | nil => simp [findOne] at h
  | cons kd rest ih =>
    obtain ⟨k, d0⟩ := kd
    by_cases hv : k = v
    · simpa [findOne_cons, hv] using h
    · rw [List.cons_append, findOne_cons, if_neg hv]
      rw [findOne_cons, if_neg hv] at h
      exact ih h

theorem findOne_append_of_none (l : List (Nat × VideoDoc)) (v k : Nat)
    (x : VideoDoc) (h : findOne l v = none) :
    findOne (l ++ [(k, x)]) v = if k = v then some x else none := by
  induction l with
  | nil => simp [findOne_cons, findOne]
  | cons kd rest ih =>
    obtain ⟨k0, d0⟩ := kd
    by_cases hv : k0 = v
    · simp [findOne_cons, hv] at h
    · rw [findOne_cons, if_neg hv] at h
      rw [List.cons_append, findOne_cons, if_neg hv]
      exact ih h

theorem updateFirst_congr (l : List (Nat × VideoDoc)) (id : Nat)
    (f g : VideoDoc → VideoDoc)
    (h : ∀ d, findOne l id = some d → f d = g d) :
    updateFirst l id f = updateFirst l id g := by
  induction l with
  | nil => rfl
  | cons kd rest ih =>
    obtain ⟨k, d⟩ := kd
    by_cases hk : k = id
    · subst hk
      rw [updateFirst, if_pos rfl, updateFirst, if_pos rfl,
        h d (by rw [findOne_cons, if_pos rfl])]
    · rw [updateFirst, if_neg hk, updateFirst, if_neg hk,
        ih fun d0 hd0 => h d0 (by rw [findOne_cons, if_neg hk]; exact hd0)]

theorem status_applySet (p : SetPayload) (d : VideoDoc) :
    (applySet p d).status = setField p.status d.status := rfl

theorem statusOf_applyVideosSet (db : DB) (id : Nat) (p : SetPayload)
    (v : Nat) :
    statusOf (applyVideosSet db id p) v =
      if v = id then
        match findOne db.videos id with
        | none => none
        | some d => setField p.status d.status
      else statusOf db v := by
  unfold statusOf applyVideosSet
  rw [show ({ db with videos := updateFirst db.videos id (applySet p) } : DB).videos
      = updateFirst db.videos id (applySet p) from rfl,
    findOne_updateFirst]
  by_cases hv : v = id
  · subst hv
    cases h : findOne db.videos v <;> simp [h, status_applySet]
  · simp [hv]

/-! ### Status-machine lemmas -/

theorem findOne_applyVideosSet_self (db : DB) (id : Nat) (p : SetPayload) :
    findOne (applyVideosSet db id p).videos id =
      (findOne db.videos id).map (applySet p) := by
  show findOne (updateFirst db.videos id (applySet p)) id = _
  rw [findOne_updateFirst, if_pos rfl]

theorem statusOf_eq_some (db : DB) (v : Nat) (s : VStatus)
    (h : statusOf db v = some s) :
    ∃ d, findOne db.videos v = some d ∧ d.status = some s := by
  unfold statusOf at h
  cases hf : findOne db.videos v with
  | none => rw [hf] at h; cases h
  | some d => rw [hf] at h; exact ⟨d, rfl, h⟩

theorem submitInsert_videos (isMock schemaFiltered : Bool) (doc : VideoDoc)
    (freshId : Nat) (db : DB) :
    (submitInsert isMock schemaFiltered doc freshId db).videos =
      db.videos ++
        [(freshId,
          if schemaFiltered then
            { doc with status := none, youtubeVideoId := none }
          else doc)] := by
  unfold submitInsert
  cases isMock <;> rfl

theorem submit_preserves_status (isMock metadataDisabled schemaFiltered : Bool)
    (metaResult : Except Unit YMeta) (url : List Char)
    (reqTitle : Option String) (freshId : Nat) (db : DB) (v : Nat) (s : VStatus)
    (h : statusOf db v = some s) :
    statusOf (submitNewVideo isMock metadataDisabled schemaFiltered metaResult
        url reqTitle freshId db).2 v = some s := by
  obtain ⟨d, hd, hds⟩ := statusOf_eq_some db v s h
  have hsub : ∀ doc : VideoDoc,
      statusOf (submitInsert isMock schemaFiltered doc freshId db) v = some s := by
    intro doc
    unfold statusOf
    rw [submitInsert_videos, findOne_append_of_some _ _ _ _ hd]
    exact hds
  unfold submitNewVideo
  cases hx : extractYoutubeVideoId url with
  | none => exact h
  | some ytid =>
    cases hm : inlineMetaStep isMock metadataDisabled metaResult with
    | error e => exact h
    | ok meta =>
      dsimp only
      split
      · exact h
      · exact hsub _

theorem process_ready_noop (db : DB) (id : Nat) (ex : VideoDoc)
    (isMock : Bool) (details : Option YMeta)
    (hfind : findOne db.videos id = some ex)
    (hst : ex.status = some VStatus.ready) :
    processVideoSubmission isMock id details db = ⟨db, 0, false⟩ := by
  unfold processVideoSubmission
  simp only [hfind]
  rw [if_pos hst]

theorem process_preserves_ready (isMock : Bool) (id : Nat)
    (details : Option YMeta) (db : DB) (v : Nat)
    (h : statusOf db v = some VStatus.ready) :
    statusOf (processVideoSubmission isMock id details db).db v =
      some VStatus.ready := by
  cases hfind : findOne db.videos id with
  | none =>
    unfold processVideoSubmission
    simp only [hfind]
    cases details with
    | none => exact h
    | some d =>
      dsimp only
      split <;> exact h
  | some ex =>
    by_cases hready : ex.status = some VStatus.ready
    · rw [process_ready_noop db id ex isMock details hfind hready]
      exact h
    · by_cases hv : v = id
      · exfalso
        apply hready
        subst hv
        obtain ⟨d, hd, hds⟩ := statusOf_eq_some db v _ h
        rw [hfind] at hd
        cases hd
        exact hds
      · unfold processVideoSubmission
        simp only [hfind]
        rw [if_neg hready]
        cases details with
        | some d =>
          simp only [statusOf_applyVideosSet, if_neg hv]
          exact h
        | none =>
          simp only [statusOf_applyVideosSet, if_neg hv]
          exact h

theorem process_never_pending (isMock : Bool) (id : Nat)
    (details : Option YMeta) (db : DB) (v : Nat) (s : VStatus)
    (h : statusOf db v = some s) (hs : s ≠ VStatus.pending) :
    statusOf (processVideoSubmission isMock id details db).db v ≠
      some VStatus.pending := by
  have hself : statusOf db v ≠ some VStatus.pending := by
    rw [h]
    intro hcon
    exact hs (Option.some.inj hcon)
  cases hfind : findOne db.videos id with
  | none =>
    unfold processVideoSubmission
    simp only [hfind]
    cases details with
    | none => exact hself
    | some d =>
      dsimp only
      split <;> exact hself
  | some ex =>
    by_cases hready : ex.status = some VStatus.ready
    · rw [process_ready_noop db id ex isMock details hfind hready]
      exact hself
    · unfold processVideoSubmission
      simp only [hfind]
      rw [if_neg hready]
      by_cases hv : v = id
      · subst hv
        have hex : ex.status = some s := by
          obtain ⟨d, hd, hds⟩ := statusOf_eq_some db v _ h
          rw [hfind] at hd
          cases hd
          exact hds
        cases details with
        | some d =>
          simp only [statusOf_applyVideosSet, if_pos rfl,
            findOne_applyVideosSet_self, hfind, Option.map_some']
          cases isMock with
          | true =>
            intro hcon
            exact VStatus.noConfusion (Option.some.inj hcon)
          | false =>
            show setField none _ ≠ some VStatus.pending
            rw [show ∀ x : Option VStatus, setField none x = x from fun _ => rfl]
            show (applySet _ ex).status ≠ some VStatus.pending
            rw [status_applySet]
            show setField none ex.status ≠ some VStatus.pending
            rw [show ∀ x : Option VStatus, setField none x = x from fun _ => rfl,
              hex]
            intro hcon
            exact hs (Option.some.inj hcon)
        | none =>
          simp only [statusOf_applyVideosSet, if_pos rfl, hfind]
          cases isMock with
          | true =>
            intro hcon
            exact VStatus.noConfusion (Option.some.inj hcon)
          | false =>
            show setField none ex.status ≠ some VStatus.pending
            rw [show ∀ x : Option VStatus, setField none x = x from fun _ => rfl,
              hex]
            intro hcon
            exact hs (Option.some.inj hcon)
      · cases details with
        | some d =>
          simp only [statusOf_applyVideosSet, if_neg hv]
          exact hself
        | none =>
          simp only [statusOf_applyVideosSet, if_neg hv]
          exact hself

theorem updateVideoDetails_statusOf (id : Nat)
    (reqName reqDescription : Option String) (reqTags : Option (List String))
    (db : DB) (v : Nat) :
    statusOf (updateVideoDetails id reqName reqDescription reqTags db) v =
      statusOf db v := by
  unfold updateVideoDetails
  split
  · rfl
  · rw [statusOf_applyVideosSet]
    by_cases hv : v = id
    · rw [if_pos hv, hv]
      unfold statusOf
      cases hfo : findOne db.videos id with
      | none => rfl
      | some d => rfl
    · rw [if_neg hv]

theorem statusOf_upsert_keep (db : DB) (id v : Nat) (f : VideoDoc → VideoDoc)
    (hf : ∀ d, (f d).status = d.status) (hnew : (f {}).status = none) :
    statusOf { db with videos := updateFirstUpsert db.videos id f } v =
      statusOf db v := by
  unfold statusOf updateFirstUpsert
  cases hfo : findOne db.videos id with
  | none =>
    simp only [hfo, Option.isSome_none, Bool.false_eq_true, if_false]
    show (findOne (db.videos ++ [(id, f {})]) v).bind (·.status) = _
    cases hv : findOne db.videos v with
    | none =>
      rw [findOne_append_of_none _ _ _ _ hv]
      by_cases hiv : id = v
      · rw [if_pos hiv]
        simp [hnew]
      · rw [if_neg hiv]
    | some d =>
      rw [findOne_append_of_some _ _ _ _ hv]
  | some d =>
    simp only [hfo, Option.isSome_some, if_true]
    show (findOne (updateFirst db.videos id f) v).bind (·.status) = _
    rw [findOne_updateFirst]
    by_cases hv : v = id
    · rw [if_pos hv, hv]
      cases hfv : findOne db.videos id with
      | none => rfl
      | some d2 => simp [hf]
    · rw [if_neg hv]

theorem recordVideoView_statusOf (supportsInc : Bool) (id : Nat) (db : DB)
    (v : Nat) :
    statusOf (recordVideoView supportsInc id db) v = statusOf db v := by
  cases supportsInc with
  | true =>
    show statusOf (recordVideoViewAtomic id db) v = _
    unfold recordVideoViewAtomic recordActivity
    rw [show ∀ db2 : DB, statusOf { db2 with
        activityEvents := db2.activityEvents + 1 } v = statusOf db2 v
      from fun _ => rfl]
    exact statusOf_upsert_keep db id v incViews (fun d => rfl) rfl
  | false =>
    show statusOf (recordVideoViewFallback id db) v = _
    unfold recordVideoViewFallback recordActivity
    rw [show ∀ db2 : DB, statusOf { db2 with
        activityEvents := db2.activityEvents + 1 } v = statusOf db2 v
      from fun _ => rfl]
    exact statusOf_upsert_keep db id v _ (fun d => rfl) rfl

theorem recordRating_statusOf (supportsInc : Bool) (vid uid r : Nat) (db : DB)
    (v : Nat) :
    statusOf (recordRating supportsInc vid uid r db).db v = statusOf db v := by
  cases supportsInc with
  | true => rfl
  | false =>
    show statusOf (recordRatingFallback vid uid r db).db v = _
    unfold recordRatingFallback
    dsimp only
    cases summaryFind db.ratingsSummary vid <;> rfl

/-! ### Claim C5 -/

/-- Claim C5: for every input URL matched by none of the fixed platform URL
shapes, `submit_new_video` fails with the invalid-reference client error and
performs zero inserts — the store (videos and auxiliary tables alike) is
returned exactly as it was before the call, for every deployment mode and
metadata outcome. -/
theorem submit_invalid_reference_atomic
    (isMock metadataDisabled schemaFiltered : Bool)
    (metaResult : Except Unit YMeta) (url : List Char)
    (reqTitle : Option String) (freshId : Nat) (db : DB)
    (h : extractYoutubeVideoId url = none) :
    submitNewVideo isMock metadataDisabled schemaFiltered metaResult url
        reqTitle freshId db
      = (Except.error SubmitErr.invalidReference, db) := by
  unfold submitNewVideo
  rw [h]

/-- Witness for C5 at the concrete input `"not-a-url"`. -/
theorem submit_invalid_reference_atomic_witness :
    extractYoutubeVideoId notAUrl = none ∧
    submitNewVideo false false false (Except.ok ⟨"T", none, none, []⟩)
        notAUrl none 0 {}
      = (Except.error SubmitErr.invalidReference, {}) :=
  ⟨by decide,
   submit_invalid_reference_atomic false false false
     (Except.ok ⟨"T", none, none, []⟩) notAUrl none 0 {} (by decide)⟩

/-! ### Claim C4 -/

/-- Claim C4 counterexample: with semantic mode disabled the code's keyword
search does not perform a substring match with an exact total count — on a
store whose single record's name contains the query it returns no record
list at all (the delegation to the semantic routine fails), while the
spec-modelled keyword/substring search returns that record with total 1. -/
theorem keyword_search_counterexample :
    searchVideosByKeyword (fun _ => (0 : Nat)) ['c','a','t'] 1 10 ≠
      Except.ok
        (keywordSearchSpec [{ name := some "cat videos" }] ['c','a','t'] 1 10) ∧
    searchVideosByKeyword (fun _ => (0 : Nat)) ['c','a','t'] 1 10 =
      Except.error SearchFailure.attributeError ∧
    keywordSearchSpec [{ name := some "cat videos" }] ['c','a','t'] 1 10 =
      ([{ name := some "cat videos" }], 1) := by
  refine ⟨?_, rfl, by decide⟩
  intro hcontra
  rw [show searchVideosByKeyword (fun _ => (0 : Nat)) ['c','a','t'] 1 10 =
      Except.error SearchFailure.attributeError from rfl] at hcontra
  exact Except.noConfusion hcontra

/-- Claim C4 amended: when semantic mode is disabled by configuration,
`search_videos_by_keyword` delegates its call signature unchanged to the
semantic vector-search routine rather than performing a keyword/substring
match; as the code stands that routine never returns results (after a
successful query embedding it reads an undeclared settings attribute — and
its helper call passes a `query_vector` keyword the helper does not
accept), so keyword mode yields either the embedding client error or a
server error, never substring matches with an exact count. -/
theorem keyword_mode_delegates_to_semantic :
    (∀ (α : Type) (enc : List Char → α) (q : List Char) (page pageSize : Nat),
        searchVideosByKeyword enc q page pageSize =
          searchVideosBySemantic enc q page pageSize) ∧
    (∀ (α : Type) (enc : List Char → α) (q : List Char) (page pageSize : Nat),
        searchVideosByKeyword enc q page pageSize =
            Except.error SearchFailure.badRequest ∨
        searchVideosByKeyword enc q page pageSize =
            Except.error SearchFailure.attributeError) := by
  constructor
  · intro α enc q page pageSize
    rfl
  · intro α enc q page pageSize
    unfold searchVideosByKeyword searchVideosBySemantic
    cases generateEmbedding enc q with
    | error e => exact Or.inl rfl
    | ok v => exact Or.inr rfl

/-! ### Claim C2 -/

/-- Claim C2 (code bug): after the scenario the per-user rows hold exactly
two current ratings summing to 6 — the reference aggregate the claim and
the specification require — but the stored aggregate never equals it on
either branch.  On the `$inc` branch the stored summary is
`(count 3, total 9)`, because `record_rating` always adds `(1, value)` even
when the per-user insert overwrote an existing rating (the averages
coincide at 3.0 only by accident of this scenario).  On the fallback branch
the very first call from an empty store raises `AttributeError` after the
per-user insert and before the summary write, and so does every later call,
leaving the summary table with no row at all. -/
theorem rating_aggregate_diverges :
    summaryFind (ratingScenario true).ratingsSummary 1 = some (3, 9) ∧
    refAggregate (ratingScenario true) 1 = (2, 6) ∧
    getRatingSummary (ratingScenario true) 1 = (3, 3) ∧
    summaryFind (ratingScenario true).ratingsSummary 1 ≠
      some (refAggregate (ratingScenario true) 1) ∧
    (recordRatingFallback 1 11 3 {}).crashed = true ∧
    (recordRating false 1 12 1
      ((recordRating false 1 11 5
        ((recordRating false 1 11 3 {}).db)).db)).crashed = true ∧
    summaryFind (ratingScenario false).ratingsSummary 1 = none ∧
    refAggregate (ratingScenario false) 1 = (2, 6) ∧
    getRatingSummary (ratingScenario false) 1 = (0, 0) := by
  have h1 : summaryFind (ratingScenario true).ratingsSummary 1 =
      some (3, 9) := by decide
  have h2 : refAggregate (ratingScenario true) 1 = (2, 6) := by decide
  refine ⟨h1, h2, ?_, ?_, by decide, by decide, by decide, by decide,
    by decide⟩
  · simp only [getRatingSummary, h1]
    norm_num
  · rw [h1, h2]
    decide

/-! ### Claim C8 -/

/-- Claim C8: a strictly sequential `record_video_view` call increases the
stored view count by exactly one on both capability branches; the
read-modify-write fallback branch produces the same store as the atomic
increment branch when run from the same state; and two sequential fallback
calls on a store lacking atomic increment yield a view count of 2. -/
theorem sequential_view_counting :
    (∀ (db : DB) (id : Nat) (supportsInc : Bool),
        viewsOf (recordVideoView supportsInc id db) id = viewsOf db id + 1) ∧
    (∀ (db : DB) (id : Nat),
        recordVideoViewAtomic id db = recordVideoViewFallback id db) ∧
    viewsOf (recordVideoView false 7 (recordVideoView false 7 {})) 7 = 2 := by
  have hagree : ∀ (db : DB) (id : Nat),
      recordVideoViewAtomic id db = recordVideoViewFallback id db := by
    intro db id
    unfold recordVideoViewAtomic recordVideoViewFallback
    cases h : findOne db.videos id with
    | none =>
      unfold updateFirstUpsert
      rw [h]
      rfl
    | some d =>
      unfold updateFirstUpsert
      rw [h]
      simp only [Option.isSome_some, if_true]
      rw [updateFirst_congr db.videos id incViews _ ?_]
      intro d0 hd0
      rw [h] at hd0
      cases hd0
      simp [incViews, h]
  have hinc : ∀ (db : DB) (id : Nat),
      viewsOf (recordVideoViewFallback id db) id = viewsOf db id + 1 := by
    intro db id
    unfold recordVideoViewFallback recordActivity updateFirstUpsert
    cases h : findOne db.videos id with
    | none =>
      simp only [h, Option.isSome_none, Bool.false_eq_true, if_false]
      show ((findOne (db.videos ++ [(id, _)]) id).bind (·.views)).getD 0 = _
      rw [findOne_append_of_none _ _ _ _ h, if_pos rfl]
      simp [viewsOf, h]
    | some d =>
      simp only [h, Option.isSome_some, if_true]
      show ((findOne (updateFirst db.videos id _) id).bind (·.views)).getD 0 = _
      rw [findOne_updateFirst, if_pos rfl, h]
      simp [viewsOf, h]
  refine ⟨?_, hagree, by decide⟩
  intro db id supportsInc
  cases supportsInc with
  | false => exact hinc db id
  | true =>
    show viewsOf (recordVideoViewAtomic id db) id = viewsOf db id + 1
    rw [hagree db id]
    exact hinc db id

/-! ### Claim C1 -/

/-- Claim C1: for every query, `page ≥ 1` and `pageSize ≥ 1`,
`semantic_search_with_threshold` requests a candidate window of exactly
`pageSize × overfetchFactor × page` rows from the similarity-descending
store read, discards a fetched candidate iff the threshold is positive and
the candidate's reported similarity is strictly below it (threshold 0 or a
missing `$similarity` treated as 0 discard nothing), returns the slice
`[(page-1)×pageSize, page×pageSize)` of the surviving ordered list, and
reports `totalMatched` as the number of survivors within the fetched window
(not a corpus-wide count). -/
theorem semantic_search_algorithm
    (corpus : List SDoc) (page pageSize overfetchFactor : Nat)
    (similarityThreshold : Rat)
    (hp : 1 ≤ page) (hs : 1 ≤ pageSize) :
    semanticSearchWithThreshold corpus page pageSize similarityThreshold
        overfetchFactor =
      (let window := corpus.take (pageSize * overfetchFactor * page)
       let survivors := window.filter fun d =>
         !(decide (0 < similarityThreshold) &&
           decide (simOf d < similarityThreshold))
       ((survivors.drop ((page - 1) * pageSize)).take pageSize,
        survivors.length)) := by
  unfold semanticSearchWithThreshold
  rw [if_neg (by omega : ¬(page < 1 ∨ pageSize < 1))]
  by_cases h0 : 0 < similarityThreshold
  · simp only [if_pos h0]
    have hfil : ∀ l : List SDoc,
        (l.filter fun d => decide (similarityThreshold ≤ simOf d)) =
        (l.filter fun d =>
          !(decide (0 < similarityThreshold) &&
            decide (simOf d < similarityThreshold))) := by
      intro l
      apply List.filter_congr
      intro d _
      by_cases hd : similarityThreshold ≤ simOf d
      · simp [hd, not_lt.mpr hd]
      · simp [hd, h0, lt_of_not_le hd]
    rw [hfil]
  · simp only [if_neg h0]
    have hfil : ∀ l : List SDoc,
        (l.filter fun d =>
          !(decide (0 < similarityThreshold) &&
            decide (simOf d < similarityThreshold))) = l := by
      intro l
      have hpred : (fun d : SDoc =>
          !(decide (0 < similarityThreshold) &&
            decide (simOf d < similarityThreshold))) = fun _ => true := by
        funext d
        simp [h0]
      rw [hpred, List.filter_true]
    rw [hfil]

/-- Witness for C1 on a concrete three-document window with threshold 3/4:
the middle document (similarity 1/2) and the tail document (no reported
similarity) are trimmed, one survivor is returned and counted. -/
theorem semantic_search_algorithm_witness :
    (semanticSearchWithThreshold
        [⟨some 1, 0⟩, ⟨some (mkRat 1 2), 1⟩, ⟨none, 2⟩] 1 2 (mkRat 3 4) 1 =
      (let window :=
        List.take (2 * 1 * 1)
          [⟨some 1, 0⟩, ⟨some (mkRat 1 2), 1⟩, (⟨none, 2⟩ : SDoc)]
       let survivors := window.filter fun d =>
         !(decide ((0 : Rat) < mkRat 3 4) && decide (simOf d < mkRat 3 4))
       ((survivors.drop ((1 - 1) * 2)).take 2, survivors.length))) ∧
    semanticSearchWithThreshold
        [⟨some 1, 0⟩, ⟨some (mkRat 1 2), 1⟩, ⟨none, 2⟩] 1 2 (mkRat 3 4) 1 =
      ([⟨some 1, 0⟩], 1) :=
  ⟨semantic_search_algorithm
      [⟨some 1, 0⟩, ⟨some (mkRat 1 2), 1⟩, ⟨none, 2⟩] 1 2 1 (mkRat 3 4)
      (by decide) (by decide),
   by decide⟩

/-! ### Claim C6 -/

/-- Claim C6 counterexample: with a credential configured, an authoritative
response whose snippet lacks a title does not trigger the fallback the
claim requires — the resolver returns metadata with an empty title, while
the lightweight path (which the claim says should be used) would have
returned the title "T". -/
theorem metadata_missing_title_no_fallback :
    fetchYoutubeMetadata true (V3Resp.payload [some ⟨none, none, none, none⟩])
        (OEResp.payload (some "T") none) "X"
      = Except.ok ⟨"", none, none, []⟩ ∧
    fetchOembed "X" (OEResp.payload (some "T") none)
      = Except.ok ⟨"T", none, some (defaultThumb "X"), []⟩ ∧
    fetchYoutubeMetadata true (V3Resp.payload [some ⟨none, none, none, none⟩])
        (OEResp.payload (some "T") none) "X"
      ≠ fetchOembed "X" (OEResp.payload (some "T") none) := by
  refine ⟨rfl, rfl, ?_⟩
  intro h
  rw [show fetchYoutubeMetadata true
        (V3Resp.payload [some ⟨none, none, none, none⟩])
        (OEResp.payload (some "T") none) "X"
      = Except.ok (⟨"", none, none, []⟩ : YMeta) from rfl,
    show fetchOembed "X" (OEResp.payload (some "T") none)
      = Except.ok (⟨"T", none, some (defaultThumb "X"), []⟩ : YMeta) from rfl] at h
  have h3 : ("" : String) = "T" := congrArg YMeta.title (Except.ok.inj h)
  exact absurd h3 (by decide)

/-- Claim C6 amended: the resolver tries the authoritative provider only
when a credential is configured; it falls back to the lightweight provider
on an authoritative network error, non-success status, malformed payload,
or empty items list — but an authoritative payload whose snippet merely
lacks a title is returned as a success with an empty title, with no
fallback; and it raises the metadata fetch error exactly when the
authoritative path was skipped or failed and the lightweight call returns a
non-success status or a payload without a (truthy) title. -/
theorem metadata_fallback_chain :
    (∀ (v3 : V3Resp) (oe : OEResp) (ytid : String),
        fetchYoutubeMetadata false v3 oe ytid = fetchOembed ytid oe) ∧
    (∀ (oe : OEResp) (ytid : String),
        fetchYoutubeMetadata true V3Resp.netErr oe ytid = fetchOembed ytid oe) ∧
    (∀ (oe : OEResp) (ytid : String) (code : Nat),
        fetchYoutubeMetadata true (V3Resp.non200 code) oe ytid
          = fetchOembed ytid oe) ∧
    (∀ (oe : OEResp) (ytid : String),
        fetchYoutubeMetadata true V3Resp.badJson oe ytid = fetchOembed ytid oe) ∧
    (∀ (oe : OEResp) (ytid : String),
        fetchYoutubeMetadata true (V3Resp.payload []) oe ytid
          = fetchOembed ytid oe) ∧
    (∀ (oe : OEResp) (ytid : String) (item : Option V3Snippet)
        (rest : List (Option V3Snippet)),
        fetchYoutubeMetadata true (V3Resp.payload (item :: rest)) oe ytid
          = Except.ok
              { title := ((item.getD ⟨none, none, none, none⟩).title).getD ""
                description := (item.getD ⟨none, none, none, none⟩).description
                thumbnailUrl := (item.getD ⟨none, none, none, none⟩).thumbnailUrl
                tags := ((item.getD ⟨none, none, none, none⟩).tags).getD [] }) ∧
    (∀ (hasApiKey : Bool) (v3 : V3Resp) (oe : OEResp) (ytid : String),
        fetchYoutubeMetadata hasApiKey v3 oe ytid
            = Except.error FetchFailure.metadataFetchError ↔
          ((hasApiKey = false ∨ (fetchV3Api v3).isOk = false) ∧
            fetchOembed ytid oe = Except.error FetchFailure.metadataFetchError)) ∧
    (∀ (oe : OEResp) (ytid : String),
        fetchOembed ytid oe = Except.error FetchFailure.metadataFetchError ↔
          ((∃ code, oe = OEResp.non200 code) ∨
            ∃ t th, oe = OEResp.payload t th ∧ strFalsy t = true)) := by
  refine ⟨fun v3 oe ytid => rfl, fun oe ytid => rfl, fun oe ytid code => rfl,
    fun oe ytid => rfl, fun oe ytid => rfl, fun oe ytid item rest => rfl,
    ?_, ?_⟩
  · intro hasApiKey v3 oe ytid
    cases hasApiKey with
    | false => simp [fetchYoutubeMetadata]
    | true =>
      cases hv : fetchV3Api v3 with
      | ok m =>
        simp [fetchYoutubeMetadata, hv, Except.isOk, Except.toBool]
      | error e =>
        simp [fetchYoutubeMetadata, hv, Except.isOk, Except.toBool]
  · intro oe ytid
    cases oe with
    | netErr => simp [fetchOembed]
    | non200 code => simp [fetchOembed]
    | badJson => simp [fetchOembed]
    | payload t th =>
      by_cases hf : strFalsy t = true
      · simp [fetchOembed, hf]
      · simp [fetchOembed, hf]

/-! ### Claim C3 -/

/-- Claim C3: across every operation of the core (Submit, ProcessSubmission,
UpdateFields, RecordView, RateVideo) and every store, a stored READY status
is never moved backward (no reachable execution rewrites READY to PENDING or
PROCESSING); no operation ever writes PENDING over an existing record of any
non-PENDING status, so ERROR→PROCESSING — exhibited concretely by the
interim write of a processing run on an ERROR record — is the only backward
transition; and ProcessSubmission invoked on a record whose stored status is
already READY performs no write and returns immediately with the store
untouched. -/
theorem status_monotonicity_core :
    (∀ (db : DB) (v : Nat), statusOf db v = some VStatus.ready →
      (∀ (isMock metadataDisabled schemaFiltered : Bool)
          (metaResult : Except Unit YMeta) (url : List Char)
          (reqTitle : Option String) (freshId : Nat),
        statusOf (submitNewVideo isMock metadataDisabled schemaFiltered
            metaResult url reqTitle freshId db).2 v = some VStatus.ready) ∧
      (∀ (isMock : Bool) (id : Nat) (details : Option YMeta),
        statusOf (processVideoSubmission isMock id details db).db v =
          some VStatus.ready) ∧
      (∀ (id : Nat) (reqName reqDescription : Option String)
          (reqTags : Option (List String)),
        statusOf (updateVideoDetails id reqName reqDescription reqTags db) v =
          some VStatus.ready) ∧
      (∀ (supportsInc : Bool) (id : Nat),
        statusOf (recordVideoView supportsInc id db) v = some VStatus.ready) ∧
      (∀ (supportsInc : Bool) (vid uid r : Nat),
        statusOf (recordRating supportsInc vid uid r db).db v =
          some VStatus.ready)) ∧
    (∀ (db : DB) (v : Nat) (s : VStatus), statusOf db v = some s →
        s ≠ VStatus.pending →
      (∀ (isMock metadataDisabled schemaFiltered : Bool)
          (metaResult : Except Unit YMeta) (url : List Char)
          (reqTitle : Option String) (freshId : Nat),
        statusOf (submitNewVideo isMock metadataDisabled schemaFiltered
            metaResult url reqTitle freshId db).2 v ≠ some VStatus.pending) ∧
      (∀ (isMock : Bool) (id : Nat) (details : Option YMeta),
        statusOf (processVideoSubmission isMock id details db).db v ≠
          some VStatus.pending) ∧
      (∀ (id : Nat) (reqName reqDescription : Option String)
          (reqTags : Option (List String)),
        statusOf (updateVideoDetails id reqName reqDescription reqTags db) v ≠
          some VStatus.pending) ∧
      (∀ (supportsInc : Bool) (id : Nat),
        statusOf (recordVideoView supportsInc id db) v ≠
          some VStatus.pending) ∧
      (∀ (supportsInc : Bool) (vid uid r : Nat),
        statusOf (recordRating supportsInc vid uid r db).db v ≠
          some VStatus.pending)) ∧
    (∀ (db : DB) (id : Nat) (ex : VideoDoc) (isMock : Bool)
        (details : Option YMeta),
      findOne db.videos id = some ex → ex.status = some VStatus.ready →
      processVideoSubmission isMock id details db = ⟨db, 0, false⟩) ∧
    (statusOf errDB 1 = some VStatus.error ∧
      (processInterim true 1 metaT errDB).map (fun dbI => statusOf dbI 1) =
        some (some VStatus.processing) ∧
      statusOf (processVideoSubmission true 1 (some metaT) errDB).db 1 =
        some VStatus.ready) := by
  refine ⟨?_, ?_, ?_, by decide, by decide, by decide⟩
  · intro db v h
    refine ⟨?_, ?_, ?_, ?_, ?_⟩
    · intro isMock metadataDisabled schemaFiltered metaResult url reqTitle freshId
      exact submit_preserves_status isMock metadataDisabled schemaFiltered
        metaResult url reqTitle freshId db v VStatus.ready h
    · intro isMock id details
      exact process_preserves_ready isMock id details db v h
    · intro id reqName reqDescription reqTags
      rw [updateVideoDetails_statusOf]
      exact h
    · intro supportsInc id
      rw [recordVideoView_statusOf]
      exact h
    · intro supportsInc vid uid r
      rw [recordRating_statusOf]
      exact h
  · intro db v s h hs
    have hself : statusOf db v ≠ some VStatus.pending := by
      rw [h]
      intro hcon
      exact hs (Option.some.inj hcon)
    refine ⟨?_, ?_, ?_, ?_, ?_⟩
    · intro isMock metadataDisabled schemaFiltered metaResult url reqTitle freshId
      rw [submit_preserves_status isMock metadataDisabled schemaFiltered
        metaResult url reqTitle freshId db v s h]
      intro hcon
      exact hs (Option.some.inj hcon)
    · intro isMock id details
      exact process_never_pending isMock id details db v s h hs
    · intro id reqName reqDescription reqTags
      rw [updateVideoDetails_statusOf]
      exact hself
    · intro supportsInc id
      rw [recordVideoView_statusOf]
      exact hself
    · intro supportsInc vid uid r
      rw [recordRating_statusOf]
      exact hself
  · intro db id ex isMock details hfind hst
    exact process_ready_noop db id ex isMock details hfind hst

/-- Witness for C3 at concrete stores: a processing run and a field update
on a READY record keep it READY; an update on an ERROR record cannot make
it PENDING; a processing run on a READY record is exactly a no-op. -/
theorem status_monotonicity_core_witness :
    statusOf (processVideoSubmission true 1 (some metaT) readyDB).db 1 =
      some VStatus.ready ∧
    statusOf (updateVideoDetails 1 (some "N") none none readyDB) 1 =
      some VStatus.ready ∧
    statusOf (updateVideoDetails 1 (some "N") none none errDB) 1 ≠
      some VStatus.pending ∧
    processVideoSubmission false 1 none readyDB = ⟨readyDB, 0, false⟩ :=
  ⟨(status_monotonicity_core.1 readyDB 1 (by decide)).2.1 true 1 (some metaT),
   (status_monotonicity_core.1 readyDB 1 (by decide)).2.2.1 1 (some "N") none
     none,
   (status_monotonicity_core.2.1 errDB 1 VStatus.error (by decide)
       (by decide)).2.2.1 1 (some "N") none none,
   status_monotonicity_core.2.2.1 readyDB 1 { status := some VStatus.ready }
     false none (by decide) (by decide)⟩

/-! ### Claim C9 -/

/-- Claim C9 counterexample: `get_video_by_id` does treat a record lacking
`status` as READY, but `process_video_submission` does not — on the
statusless record it proceeds to process (two writes, store changed),
whereas on the explicitly READY record it is a no-op; so not every reader
treats absence as equivalent to READY. -/
theorem missing_status_counterexample :
    statusOf statuslessDB 1 = none ∧
    (getVideoById statuslessDB 1).map (·.status) = some (some VStatus.ready) ∧
    (processVideoSubmission true 1 (some metaT) statuslessDB).writes = 2 ∧
    (processVideoSubmission true 1 (some metaT) statuslessDB).db ≠
      statuslessDB ∧
    processVideoSubmission true 1 (some metaT) readyDB = ⟨readyDB, 0, false⟩ := by
  refine ⟨by decide, by decide, by decide, by decide, by decide⟩

/-- Claim C9 amended: `get_video_by_id` returns a record lacking `status`
with status READY (absence is not an error state), but
`process_video_submission` compares the stored field to READY literally, so
a record with a missing status is treated as not-READY there: the
processing pass proceeds and issues writes instead of returning
immediately. -/
theorem missing_status_defaults_ready_for_get :
    (∀ (db : DB) (id : Nat),
        (getVideoById db id).map (·.status) =
          (findOne db.videos id).map (fun d => some (d.status.getD VStatus.ready))) ∧
    (∀ (db : DB) (id : Nat) (ex : VideoDoc) (isMock : Bool)
        (details : Option YMeta),
        findOne db.videos id = some ex → ex.status = none →
        (processVideoSubmission isMock id details db).writes ≠ 0) := by
  have hback : ∀ d : VideoDoc, (backfillYoutubeId d).status = d.status := by
    intro d
    unfold backfillYoutubeId
    by_cases hc : (match d.youtubeVideoId with
        | none => true | some l => l.isEmpty) = true
    · rw [if_pos hc]
      cases hl : d.location with
      | none => rfl
      | some loc =>
        cases he : extractYoutubeVideoId loc with
        | none => first
          | rfl
          | simp [he]
        | some y => first
          | rfl
          | simp [he]
    · rw [if_neg hc]
  constructor
  · intro db id
    unfold getVideoById
    cases h : findOne db.videos id with
    | none => rfl
    | some d =>
      cases hs : d.status <;> simp [hback, hs]
  · intro db id ex isMock details hfind hstat
    have hne : ex.status ≠ some VStatus.ready := by
      rw [hstat]
      exact fun h => Option.noConfusion h
    unfold processVideoSubmission
    simp only [hfind]
    rw [if_neg hne]
    cases details <;> simp

/-- Witness for the amended C9 at the concrete statusless store. -/
theorem missing_status_defaults_ready_for_get_witness :
    (getVideoById statuslessDB 1).map (·.status) =
      (findOne statuslessDB.videos 1).map
        (fun d => some (d.status.getD VStatus.ready)) ∧
    (processVideoSubmission true 1 (some metaT) statuslessDB).writes ≠ 0 :=
  ⟨missing_status_defaults_ready_for_get.1 statuslessDB 1,
   missing_status_defaults_ready_for_get.2 statuslessDB 1 {} true (some metaT)
     (by decide) (by decide)⟩

/-! ### Claim C10 -/

theorem takeId_spec : ∀ (n : Nat) (s res : List Char), takeId n s = some res →
    res.length = n ∧ res.all isIdChar = true := by
  intro n
  induction n with
  | zero =>
    intro s res h
    cases Option.some.inj h
    exact ⟨rfl, rfl⟩
  | succ n ih =>
    intro s res h
    cases s with
    | nil => cases h
    | cons c rest =>
      unfold takeId at h
      by_cases hc : isIdChar c = true
      · rw [if_pos hc] at h
        cases hm : takeId n rest with
        | none => rw [hm] at h; cases h
        | some res2 =>
          rw [hm] at h
          obtain ⟨hl, ha⟩ := ih rest res2 hm
          cases Option.some.inj h
          refine ⟨by simp [hl], ?_⟩
          simp [List.all_cons, hc, ha]
      · rw [if_neg hc] at h
        cases h

set_option maxRecDepth 20000

/-- Claim C10: whenever URL extraction succeeds the extracted id is exactly
11 characters drawn from `[A-Za-z0-9_-]`; matching is anchored at the start
of the input, so each recognized URL shape followed by arbitrary trailing
characters still yields the same (first) 11-character identifier, while an
input whose first character can start no pattern variant fails. -/
theorem extract_id_shape :
    (∀ (s res : List Char), extractYoutubeVideoId s = some res →
        res.length = 11 ∧ res.all isIdChar = true) ∧
    (∀ t, extractYoutubeVideoId (urlYoutuBe ++ t) = some idDQ) ∧
    (∀ t, extractYoutubeVideoId (urlWatch ++ t) = some idDQ) ∧
    (∀ t, extractYoutubeVideoId (urlEmbed ++ t) = some idDQ) ∧
    (∀ t, extractYoutubeVideoId (urlV ++ t) = some idDQ) ∧
    (∀ t, extractYoutubeVideoId (urlShorts ++ t) = some idDQ) ∧
    (∀ (c : Char) (s : List Char), c ≠ 'h' → c ≠ 'y' → c ≠ 'w' →
        extractYoutubeVideoId (c :: s) = none) := by
  refine ⟨?_, fun t => rfl, fun t => rfl, fun t => rfl, fun t => rfl,
    fun t => rfl, ?_⟩
  · intro s res h
    obtain ⟨lit, _, hlit⟩ := List.exists_of_findSome?_eq_some h
    obtain ⟨pre, _, hpre⟩ := List.exists_of_findSome?_eq_some hlit
    obtain ⟨rest, _, htake⟩ := Option.bind_eq_some.mp hpre
    exact takeId_spec 11 rest res htake
  · intro c s hh hy hw
    have hH : ∀ l : List Char,
        (stripLit ('h' :: l) (c :: s)).bind (takeId 11) = none := by
      intro l
      rw [stripLit, if_neg fun e => hh e.symm]
      rfl
    have hW : ∀ l : List Char,
        (stripLit ('w' :: l) (c :: s)).bind (takeId 11) = none := by
      intro l
      rw [stripLit, if_neg fun e => hw e.symm]
      rfl
    have hY : ∀ l : List Char,
        (stripLit ('y' :: l) (c :: s)).bind (takeId 11) = none := by
      intro l
      rw [stripLit, if_neg fun e => hy e.symm]
      rfl
    simp only [extractYoutubeVideoId, matchShape, schemeVariants,
      litYoutuBe, litWatch, litEmbed, litV, litShorts,
      List.findSome?_cons, List.findSome?_nil,
      List.cons_append, List.nil_append, hH, hW, hY]

/-- Witness for C10: the concrete id is 11 valid characters; a watch-shape
URL with no trailing characters extracts it; a leading space makes
extraction fail. -/
theorem extract_id_shape_witness :
    (idDQ.length = 11 ∧ idDQ.all isIdChar = true) ∧
    extractYoutubeVideoId (urlWatch ++ []) = some idDQ ∧
    extractYoutubeVideoId (' ' :: urlYoutuBe) = none :=
  ⟨extract_id_shape.1 (urlYoutuBe ++ []) idDQ (extract_id_shape.2.1 []),
   extract_id_shape.2.2.1 [],
   extract_id_shape.2.2.2.2.2.2 ' ' urlYoutuBe (by decide) (by decide)
     (by decide)⟩

/-! ### Claim C7 -/

theorem tokenize_nil : tokenize [] = [] := by
  rw [tokenize]

theorem tokenize_cons_word (c : Char) (rest : List Char)
    (hc : isWordCh c = true) :
    tokenize (c :: rest) =
      (c :: rest.takeWhile isWordCh) :: tokenize (rest.dropWhile isWordCh) := by
  rw [tokenize, if_pos hc]

theorem tokenize_cons_space (c : Char) (rest : List Char)
    (hw : isWordCh c = false) (hs : isSpaceCh c = true) :
    tokenize (c :: rest) = tokenize rest := by
  rw [tokenize, if_neg (by simp [hw]), if_pos hs]

theorem tokenize_cons_punct (c : Char) (rest : List Char)
    (hw : isWordCh c = false) (hs : isSpaceCh c = false) :
    tokenize (c :: rest) = [c] :: tokenize rest := by
  rw [tokenize, if_neg (by simp [hw]), if_neg (by simp [hs])]

theorem word_not_space (c : Char) (h : isWordCh c = true) :
    isSpaceCh c = false := by
  cases hsp : isSpaceCh c with
  | false => rfl
  | true =>
    exfalso
    simp only [isSpaceCh, Bool.or_eq_true, decide_eq_true_eq] at hsp
    rcases hsp with ((((h1 | h1) | h1) | h1) | h1) | h1 <;>
      (subst h1; exact absurd h (by decide))

theorem takeWhile_append_word (t rest : List Char)
    (hall : ∀ c ∈ t, isWordCh c = true)
    (hrest : ∀ c, rest.head? = some c → isWordCh c = false) :
    (t ++ rest).takeWhile isWordCh = t ∧
    (t ++ rest).dropWhile isWordCh = rest := by
  induction t with
  | nil =>
    simp only [List.nil_append]
    cases rest with
    | nil => exact ⟨rfl, rfl⟩
    | cons r rs =>
      have hr : isWordCh r = false := hrest r rfl
      exact ⟨List.takeWhile_cons_of_neg (by simp [hr]),
        List.dropWhile_cons_of_neg (by simp [hr])⟩
  | cons c t2 ih =>
    have hc : isWordCh c = true := hall c (List.mem_cons_self c t2)
    have ih2 := ih (fun c2 h2 => hall c2 (List.mem_cons_of_mem c h2))
    rw [List.cons_append]
    exact ⟨by rw [List.takeWhile_cons_of_pos hc, ih2.1],
      by rw [List.dropWhile_cons_of_pos hc, ih2.2]⟩

theorem tokenize_word_run (t rest : List Char) (ht : t ≠ [])
    (hall : ∀ c ∈ t, isWordCh c = true)
    (hrest : ∀ c, rest.head? = some c → isWordCh c = false) :
    tokenize (t ++ rest) = t :: tokenize rest := by
  cases t with
  | nil => exact absurd rfl ht
  | cons c t2 =>
    have hc : isWordCh c = true := hall c (List.mem_cons_self c t2)
    have htw := takeWhile_append_word t2 rest
      (fun c2 h2 => hall c2 (List.mem_cons_of_mem c h2)) hrest
    rw [List.cons_append, tokenize_cons_word c _ hc, htw.1, htw.2]

theorem tokenize_good_aux : ∀ (n : Nat) (l : List Char), l.length ≤ n →
    ∀ t ∈ tokenize l, goodToken t := by
  intro n
  induction n with
  | zero =>
    intro l hl t ht
    rw [List.length_eq_zero.mp (Nat.le_zero.mp hl)] at ht
    rw [tokenize_nil] at ht
    cases ht
  | succ n ih =>
    intro l hl t ht
    cases l with
    | nil =>
      rw [tokenize_nil] at ht
      cases ht
    | cons c rest =>
      by_cases hw : isWordCh c = true
      · rw [tokenize_cons_word c rest hw] at ht
        rcases List.mem_cons.mp ht with rfl | ht2
        · left
          refine ⟨by simp, ?_⟩
          intro c2 h2
          rcases List.mem_cons.mp h2 with rfl | h3
          · exact hw
          · exact List.mem_takeWhile_imp h3
        · exact ih (rest.dropWhile isWordCh)
            (le_trans (List.dropWhile_sublist _).length_le
              (Nat.le_of_succ_le_succ hl)) t ht2
      · have hw2 : isWordCh c = false := by
          cases hcw : isWordCh c
          · rfl
          · exact absurd hcw hw
        by_cases hs : isSpaceCh c = true
        · rw [tokenize_cons_space c rest hw2 hs] at ht
          exact ih rest (Nat.le_of_succ_le_succ hl) t ht
        · have hs2 : isSpaceCh c = false := by
            cases hcs : isSpaceCh c
            · rfl
            · exact absurd hcs hs
          rw [tokenize_cons_punct c rest hw2 hs2] at ht
          rcases List.mem_cons.mp ht with rfl | ht2
          · right
            exact ⟨c, rfl, hw2, hs2⟩
          · exact ih rest (Nat.le_of_succ_le_succ hl) t ht2

theorem tokenize_good (l : List Char) : ∀ t ∈ tokenize l, goodToken t :=
  tokenize_good_aux l.length l (Nat.le_refl _)

theorem tokenize_single_good (t : List Char) (h : goodToken t) :
    tokenize t = [t] := by
  rcases h with ⟨hne, hall⟩ | ⟨c, rfl, hw, hs⟩
  · have := tokenize_word_run t [] hne hall
      (fun c hc => Option.noConfusion hc)
    rw [List.append_nil] at this
    rw [this, tokenize_nil]
  · rw [tokenize_cons_punct c [] hw hs, tokenize_nil]

theorem tokenize_joinTokens (ts : List (List Char))
    (h : ∀ t ∈ ts, goodToken t) : tokenize (joinTokens ts) = ts := by
  induction ts with
  | nil => exact tokenize_nil
  | cons t ts ih =>
    have hgt := h t (List.mem_cons_self t ts)
    have hrest : ∀ t2 ∈ ts, goodToken t2 :=
      fun t2 h2 => h t2 (List.mem_cons_of_mem t h2)
    cases ts with
    | nil => exact tokenize_single_good t hgt
    | cons t2 ts2 =>
      have hjoin : joinTokens (t :: t2 :: ts2) =
          t ++ ' ' :: joinTokens (t2 :: ts2) := rfl
      rw [hjoin]
      have hihs := ih hrest
      rcases hgt with ⟨hne, hall⟩ | ⟨c, rfl, hw, hs⟩
      · rw [tokenize_word_run t (' ' :: joinTokens (t2 :: ts2)) hne hall ?_]
        · rw [tokenize_cons_space ' ' _ (by decide) (by decide), hihs]
        · intro c2 hc2
          cases Option.some.inj hc2
          decide
      · rw [List.cons_append, List.nil_append,
          tokenize_cons_punct c _ hw hs,
          tokenize_cons_space ' ' _ (by decide) (by decide), hihs]

theorem tokenize_all_space (l : List Char) (h : l.all isSpaceCh = true) :
    tokenize l = [] := by
  induction l with
  | nil => exact tokenize_nil
  | cons c rest ih =>
    rw [List.all_cons, Bool.and_eq_true] at h
    have hw : isWordCh c = false := by
      cases hcw : isWordCh c
      · rfl
      · rw [word_not_space c hcw] at h
        exact absurd h.1 (by decide)
    rw [tokenize_cons_space c rest hw h.1]
    exact ih h.2

/-- Claim C7: for any input text that tokenizes to more than 512 tokens,
`generate_embedding` of the full text hands the model the same string as
`generate_embedding` of the text's first 512 tokens (space-joined), because
the clipping step truncates to exactly 512 tokens, preserving order and
joining with single spaces — and re-tokenizing that joined prefix
reproduces exactly those 512 tokens. -/
theorem embed_clip_stable {α : Type} (enc : List Char → α) (text : List Char)
    (h : 512 < (tokenize text).length) :
    generateEmbedding enc text =
      generateEmbedding enc (joinTokens ((tokenize text).take 512)) ∧
    clipToMaxTokens 512 text = joinTokens ((tokenize text).take 512) := by
  have hclip : clipToMaxTokens 512 text =
      joinTokens ((tokenize text).take 512) := by
    unfold clipToMaxTokens
    rw [if_neg (not_le.mpr h)]
  have hgood : ∀ t ∈ (tokenize text).take 512, goodToken t :=
    fun t ht => tokenize_good text t (List.take_subset _ _ ht)
  have hretok : tokenize (joinTokens ((tokenize text).take 512)) =
      (tokenize text).take 512 := tokenize_joinTokens _ hgood
  have hlen : ((tokenize text).take 512).length = 512 := by
    rw [List.length_take]
    exact min_eq_left (le_of_lt h)
  have hclip2 : clipToMaxTokens 512 (joinTokens ((tokenize text).take 512)) =
      joinTokens ((tokenize text).take 512) := by
    unfold clipToMaxTokens
    rw [hretok, if_pos (le_of_eq hlen)]
  have htne : tokenize text ≠ [] := by
    intro hcon
    rw [hcon] at h
    exact absurd h (by decide)
  have htext_ne : text.isEmpty = false := by
    rw [List.isEmpty_eq_false]
    intro hcon
    rw [hcon, tokenize_nil] at htne
    exact htne rfl
  have htext_sp : text.all isSpaceCh = false := by
    cases hsp : text.all isSpaceCh
    · rfl
    · exact absurd (tokenize_all_space text hsp) htne
  have hpre_tne : tokenize (joinTokens ((tokenize text).take 512)) ≠ [] := by
    rw [hretok]
    intro hcon
    rw [hcon] at hlen
    exact absurd hlen (by decide)
  have hpre_ne : (joinTokens ((tokenize text).take 512)).isEmpty = false := by
    rw [List.isEmpty_eq_false]
    intro hcon
    apply hpre_tne
    rw [hcon]
    exact tokenize_nil
  have hpre_sp : (joinTokens ((tokenize text).take 512)).all isSpaceCh
      = false := by
    cases hsp : (joinTokens ((tokenize text).take 512)).all isSpaceCh
    · rfl
    · exact absurd (tokenize_all_space _ hsp) hpre_tne
  refine ⟨?_, hclip⟩
  unfold generateEmbedding
  rw [htext_ne, htext_sp, hpre_ne, hpre_sp, hclip, hclip2]

/-- Witness for C7 at a concrete 600-token text. -/
theorem embed_clip_stable_witness :
    generateEmbedding (fun l => l.length) witText =
      generateEmbedding (fun l => l.length)
        (joinTokens ((tokenize witText).take 512)) := by
  have htok : tokenize witText = List.replicate 600 ['a'] := by
    apply tokenize_joinTokens
    intro t ht
    rw [List.eq_of_mem_replicate ht]
    left
    exact ⟨by simp, fun c hc => by
      rcases List.mem_cons.mp hc with rfl | h2
      · decide
      · cases h2⟩
  exact (embed_clip_stable (fun l => l.length) witText
    (by rw [htok, List.length_replicate]; decide)).1

end KV
